import Mathlib

/-!
Verification of the tool-calling conversation loop of `analysis/client.py`
(`MCPClient.process_query`), the session-open validation of
`MCPClient.connect_to_server`, and the request-handler teardown of
`main.py` (`analysis_agent`).

The embedding is shallow: the Python objects become inductive types, the
mutable `messages` / `final_text` lists become explicit state, and the
side effects (model-gateway calls, tool invocations, appends to the
transcript) are reified as an event trace returned alongside the result.
The model gateway is abstracted as a function from the call index to the
content blocks of that call's response: since each loop iteration issues
exactly one gateway call, indexing responses by call count loses no
generality over a transcript-dependent gateway.
-/

namespace MCPClient

/-- A content block as it appears in a model response or in a transcript
turn.  `text` and `toolUse` mirror the Anthropic API blocks dispatched on
in `client.py` lines 122 and 126 (`content.type == 'text'` /
`'tool_use'`); `toolResult` mirrors the dict built at lines 143-147.
The Python loop silently skips any block whose `type` is neither `text`
nor `tool_use`, which the scan functions below reproduce. -/
inductive TBlock where
  | text (s : String)
  | toolUse (id : String) (name : String) (input : List (String × String))
  | toolResult (toolUseId : String) (output : String)
deriving DecidableEq

/-- Result of `session.call_tool` (client.py line 132): the MCP client
library returns a result object carrying content and an error flag.
Modelled from the spec: the Tool Registry invocation operation (the MCP
`ClientSession.call_tool`, not part of src/) delivers a tool failure
in-band as a result whose content is an error payload, rather than
raising; the loop (lines 132-149) folds `result.content` into the
transcript unconditionally. -/
structure CallToolResult where
  content : String
  isError : Bool
deriving DecidableEq

/-- Content of one transcript message: the initial user message holds a
plain string (line 94-99), later messages hold block lists. -/
inductive MsgContent where
  | str (s : String)
  | blocks (bs : List TBlock)
deriving DecidableEq

/-- One entry of the `messages` list (a transcript turn). -/
structure Message where
  role : String
  content : MsgContent
deriving DecidableEq

/-- One entry of `available_tools` (client.py lines 102-106). -/
structure ToolDescriptor where
  name : String
  description : String
  inputSchema : String
deriving DecidableEq

/-- Observable events of one `process_query` execution, in program order:
a loop model-gateway call (lines 109-114 and 152-157) recorded with the
transcript and catalog it is given, a tool invocation (line 132), an
append to the `messages` transcript (lines 136-149), and the final
summary gateway call (lines 164-169) recorded with its system
instruction and transcript. -/
inductive Event where
  | gatewayCall (msgs : List Message) (catalog : List ToolDescriptor)
  | toolInvoke (name : String) (args : List (String × String))
  | commit (m : Message)
  | summaryCall (system : String) (msgs : List Message)
deriving DecidableEq

/-- Failure kinds of the final summary-text extraction
(`response_summary.content[0].text`, client.py line 170): an
`IndexError` when the content sequence is empty, an `AttributeError`
when the first block has no `text` field. -/
inductive RunError where
  | indexOutOfRange
  | attributeError
deriving DecidableEq

/-- Rendering of a Python dict of string arguments, used in the
`final_text` trace entry of client.py line 133. -/
def argsRender (args : List (String × String)) : String :=
  "\x7b" ++ String.intercalate ", " (args.map (fun p => p.1 ++ ": " ++ p.2)) ++ "\x7d"

/-- The trace string `[Calling tool {name} with args {args}]` of
client.py line 133. -/
def callNote (n : String) (args : List (String × String)) : String :=
  "[Calling tool " ++ n ++ " with args " ++ argsRender args ++ "]"

/-- First `tool_use` block of a response, in block order — the block the
`for`/`elif content.type == 'tool_use'` scan of client.py lines 121-126
stops at.  Returns its id, name and input. -/
def firstToolUse : List TBlock → Option (String × String × List (String × String))
  | [] => none
  | TBlock.toolUse i n a :: _ => some (i, n, a)
  | _ :: rest => firstToolUse rest

/-- The `assistant_message_content` list accumulated by the scan of
client.py lines 120-135: every `text` block up to, and including, the
first `tool_use` block; blocks of any other type are skipped. -/
def pendingBlocks : List TBlock → List TBlock
  | [] => []
  | TBlock.text s :: rest => TBlock.text s :: pendingBlocks rest
  | TBlock.toolUse i n a :: _ => [TBlock.toolUse i n a]
  | TBlock.toolResult _ _ :: rest => pendingBlocks rest

/-- The strings appended to `final_text` while scanning one response
(client.py lines 124 and 133): each text fragment in order, then the
calling-note for the first `tool_use` block if one is reached. -/
def scanTexts : List TBlock → List String
  | [] => []
  | TBlock.text s :: rest => s :: scanTexts rest
  | TBlock.toolUse _ n a :: _ => [callNote n a]
  | TBlock.toolResult _ _ :: rest => scanTexts rest

/-- The `while True` loop of client.py lines 119-162, with the response
of the k-th gateway call given by `gw k` and the registry by `tools`.
`fuel` bounds the number of iterations modelled (the Python loop has no
bound; `none` means the loop has not terminated within `fuel`
iterations).  The call that produced response `k` has already been
recorded by the caller; each tool iteration records, in program order,
the tool invocation (line 132), the commit of the pending assistant turn
(lines 136-139), the commit of the tool-result user turn (lines
140-149), and the next gateway call (lines 152-157).  Returns the
transcript at loop exit, the `final_text` entries produced, and the
events emitted from this point on. -/
def loopRun (gw : Nat → List TBlock) (tools : String → List (String × String) → CallToolResult)
    (catalog : List ToolDescriptor) :
    Nat → Nat → List Message → Option (List Message × List String × List Event)
  | 0, _, _ => none
  | fuel+1, k, msgs =>
    match firstToolUse (gw k) with
    | none => some (msgs, scanTexts (gw k), [])
    | some (i, n, args) =>
      let r := tools n args
      let aMsg : Message := ⟨"assistant", MsgContent.blocks (pendingBlocks (gw k))⟩
      let uMsg : Message := ⟨"user", MsgContent.blocks [TBlock.toolResult i r.content]⟩
      let msgs1 := msgs ++ [aMsg, uMsg]
      match loopRun gw tools catalog fuel (k+1) msgs1 with
      | none => none
      | some (m2, t2, e2) =>
        some (m2, scanTexts (gw k) ++ t2,
          Event.toolInvoke n args :: Event.commit aMsg :: Event.commit uMsg ::
            Event.gatewayCall msgs1 catalog :: e2)

/-- The system instruction of the summary call (client.py line 167). -/
def summarySystem (query : String) : String :=
  "Provide a summary of the analysis conducted for the query: " ++ query ++
    " based on the below messages"

/-- The extraction `response_summary.content[0].text` (client.py line 170): out-of-range
failure on an empty content sequence, attribute failure when the first
block is not a text block, otherwise the first block's text — any
further blocks are ignored. -/
def extractFirstText : List TBlock → Except RunError String
  | [] => Except.error RunError.indexOutOfRange
  | TBlock.text s :: _ => Except.ok s
  | _ :: _ => Except.error RunError.attributeError

/-- Outcome of one `process_query` execution: the returned value (or the
failure of the final extraction), the transcript passed to the summary
call, the accumulated `final_text`, and the full event trace. -/
structure RunOut where
  result : Except RunError String
  messages : List Message
  finalText : List String
  events : List Event

/-- The operation `MCPClient.process_query` (client.py lines 79-172): initializes the
transcript with one user turn holding the query (lines 94-99), issues
the initial gateway call (lines 109-114), runs the tool loop, then
issues one summary gateway call over the accumulated transcript (lines
164-169) and returns the text of the first content block of its
response (line 170).  `summaryResp` is the content of the summary
response; `fuel` bounds the modelled loop iterations. -/
def processQuery (gw : Nat → List TBlock)
    (tools : String → List (String × String) → CallToolResult)
    (catalog : List ToolDescriptor) (summaryResp : List TBlock)
    (fuel : Nat) (query : String) : Option RunOut :=
  let messages0 : List Message := [⟨"user", MsgContent.str query⟩]
  match loopRun gw tools catalog fuel 0 messages0 with
  | none => none
  | some (msgs, ft, evs) =>
    some ⟨extractFirstText summaryResp, msgs, ft,
      Event.gatewayCall messages0 catalog ::
        (evs ++ [Event.summaryCall (summarySystem query) msgs])⟩

/-- Is the event a loop model-gateway call? -/
def isGatewayCall : Event → Bool
  | Event.gatewayCall _ _ => true
  | _ => false

/-- Is the event the summary model-gateway call? -/
def isSummaryCall : Event → Bool
  | Event.summaryCall _ _ => true
  | _ => false

/-- Is the event an invocation of the tool named `n`? -/
def isToolInvokeNamed (n : String) : Event → Bool
  | Event.toolInvoke m _ => m == n
  | _ => false

/-- The messages committed to the transcript in an event trace, in
order. -/
def commitsOf : List Event → List Message
  | [] => []
  | Event.commit m :: rest => m :: commitsOf rest
  | _ :: rest => commitsOf rest

/-- The call identifier of a tool-result block, if the block is one. -/
def toolResultIdOf : TBlock → Option String
  | TBlock.toolResult j _ => some j
  | _ => none

/-- Call identifiers of the tool-result blocks of one message. -/
def msgToolResultIds (m : Message) : List String :=
  match m.content with
  | MsgContent.str _ => []
  | MsgContent.blocks bs => bs.filterMap toolResultIdOf

/-- Does the block request a tool invocation with call identifier `i`? -/
def hasToolUseId (i : String) : TBlock → Bool
  | TBlock.toolUse j _ _ => j == i
  | _ => false

/-- Is `prev` an assistant turn whose blocks contain exactly one
tool-invocation request carrying call identifier `i`? -/
def prevAssistantMatches (prev : Option Message) (i : String) : Bool :=
  match prev with
  | some ⟨r, MsgContent.blocks bs⟩ => r == "assistant" && bs.countP (hasToolUseId i) == 1
  | _ => false

/-- Transcript well-formedness from a given previous turn: every
tool-result block's call identifier matches exactly one tool-invocation
request of the immediately prior assistant turn. -/
def okFrom (prev : Option Message) : List Message → Bool
  | [] => true
  | m :: rest =>
    (msgToolResultIds m).all (fun i => prevAssistantMatches prev i) && okFrom (some m) rest

/-- The §8 transcript invariant: every tool-result block's call
identifier matches exactly one tool-invocation request occurring in the
immediately prior assistant turn. -/
def okTranscript (msgs : List Message) : Bool := okFrom none msgs

/-- Every transcript handed to a gateway call (loop or summary) in an
event trace satisfies the transcript invariant. -/
def eventTranscriptsOk : List Event → Bool
  | [] => true
  | Event.gatewayCall ms _ :: rest => okTranscript ms && eventTranscriptsOk rest
  | Event.summaryCall _ ms :: rest => okTranscript ms && eventTranscriptsOk rest
  | _ :: rest => eventTranscriptsOk rest

/-- The previous turn seen after walking a list of messages. -/
def lastPrev (prev : Option Message) : List Message → Option Message
  | [] => prev
  | m :: rest => lastPrev (some m) rest

/-- Does the message contain a tool-invocation request for tool `n`
with arguments `a`? -/
def msgHasToolUse (n : String) (a : List (String × String)) (m : Message) : Bool :=
  match m.content with
  | MsgContent.str _ => false
  | MsgContent.blocks bs => bs.any (fun b => match b with
      | TBlock.toolUse _ n2 a2 => n2 == n && a2 == a
      | _ => false)

/-- Walks an event trace maintaining the committed transcript so far,
requiring each tool invocation to be preceded by the commit of an
assistant turn containing its request. -/
def invokeAfterCommitAux (committed : List Message) : List Event → Bool
  | [] => true
  | Event.toolInvoke n a :: rest =>
    committed.any (fun m => m.role == "assistant" && msgHasToolUse n a m)
      && invokeAfterCommitAux committed rest
  | Event.commit m :: rest => invokeAfterCommitAux (committed ++ [m]) rest
  | _ :: rest => invokeAfterCommitAux committed rest

/-- The §5 ordering property as the spec states it: no tool is invoked
before the assistant turn containing its request has been committed to
the transcript. -/
def invokeAfterCommit (evs : List Event) : Bool := invokeAfterCommitAux [] evs

/-- Checks that `am` is an assistant turn whose blocks contain exactly one
tool-invocation request, namely one with some id `i` for tool `n` with
arguments `a`, and `um` is a user turn whose sole block is a tool
result tagged `i`. -/
def matchedPair (n : String) (a : List (String × String)) (am um : Message) : Bool :=
  match am, um with
  | ⟨ra, MsgContent.blocks bs⟩, ⟨ru, MsgContent.blocks [TBlock.toolResult i _]⟩ =>
    ra == "assistant" && ru == "user" && bs.countP (hasToolUseId i) == 1
      && bs.any (fun b => b == TBlock.toolUse i n a)
  | _, _ => false

/-- The ordering the code actually implements: every tool invocation is
immediately followed by the commit of the assistant turn containing its
request, then the commit of the matching tool-result user turn, then
the next gateway call. -/
def invokePattern : List Event → Bool
  | Event.toolInvoke n a :: Event.commit am :: Event.commit um ::
      Event.gatewayCall _ _ :: rest =>
    matchedPair n a am um && invokePattern rest
  | Event.toolInvoke _ _ :: _ => false
  | [] => true
  | _ :: rest => invokePattern rest

/-! ### Termination-analysis stubs -/

/-- Catalog used by the termination-analysis stub gateways. -/
def stubCatalog : List ToolDescriptor := [⟨"stub_tool", "a stub tool", "none"⟩]

/-- Registry stub whose every invocation succeeds. -/
def toolsStub : String → List (String × String) → CallToolResult := fun _ _ => ⟨"ok", false⟩

/-- The assistant turn a stub tool-call response gives rise to. -/
def stubAMsg : Message := ⟨"assistant", MsgContent.blocks [TBlock.toolUse "t1" "stub_tool" []]⟩

/-- The tool-result user turn a stub tool invocation gives rise to. -/
def stubUMsg : Message := ⟨"user", MsgContent.blocks [TBlock.toolResult "t1" "ok"]⟩

/-- Gateway stub returning a tool-call turn on the first `N` calls and
the plain text `done` on every later call. -/
def gwStubN (N : Nat) : Nat → List TBlock := fun k =>
  if k < N then [TBlock.toolUse "t1" "stub_tool" []] else [TBlock.text "done"]

/-- Gateway stub whose every response contains a tool-invocation
request. -/
def gwStubAll : Nat → List TBlock := fun _ => [TBlock.toolUse "t1" "stub_tool" []]

/-- Summary response used with the stub gateways. -/
def stubSummary : List TBlock := [TBlock.text "summary"]

/-! ### The §8 scenario stubs -/

/-- The single catalog entry of the §8 scenario, shaped like the
`read_file` tool of `analysis/server.py` lines 400-414. -/
def readFileTool : ToolDescriptor :=
  ⟨"read_file", "Read a file from the specified path.", "file_path: string"⟩

/-- Scenario catalog: the single tool `read_file`. -/
def scenarioCatalog : List ToolDescriptor := [readFileTool]

/-- Scenario gateway stub: first response is one tool invocation request
for `read_file` on `/a.txt`, every later response is the plain text
`done`. -/
def scenarioGw : Nat → List TBlock := fun k =>
  if k = 0 then [TBlock.toolUse "toolu_01" "read_file" [("file_path", "/a.txt")]]
  else [TBlock.text "done"]

/-- Scenario registry stub: every invocation succeeds with `hello`. -/
def scenarioTools : String → List (String × String) → CallToolResult :=
  fun _ _ => ⟨"hello", false⟩

/-- Scenario summary response: a single text block. -/
def scenarioSummary : List TBlock :=
  [TBlock.text "The file /a.txt was read during the analysis."]

/-- Registry stub whose every invocation fails: the result carries an
error payload with the error flag set. -/
def toolsFailing : String → List (String × String) → CallToolResult :=
  fun _ _ => ⟨"Error: tool failed", true⟩

/-- Gateway stub whose every response is the plain text `done`. -/
def gwTextOnly : Nat → List TBlock := fun _ => [TBlock.text "done"]

/-- Placeholder output used as the default of `Option.getD`. -/
def fallbackOut : RunOut := ⟨Except.error RunError.indexOutOfRange, [], [], []⟩

/-- The concrete output of the §8 scenario run. -/
def scenarioOut : RunOut :=
  (processQuery scenarioGw scenarioTools scenarioCatalog scenarioSummary 2 "list files").getD
    fallbackOut

/-- The concrete output of a run against the text-only gateway stub. -/
def textOnlyOut : RunOut :=
  (processQuery gwTextOnly toolsStub stubCatalog stubSummary 1 "q").getD fallbackOut

/-- The concrete loop output of the §8 scenario. -/
def scenarioLoopOut : List Message × List String × List Event :=
  (loopRun scenarioGw scenarioTools scenarioCatalog 2 0
    [⟨"user", MsgContent.str "list files"⟩]).getD ([], [], [])

/-- The concrete loop output of the §8 scenario against the failing
registry stub. -/
def failLoopOut : List Message × List String × List Event :=
  (loopRun scenarioGw toolsFailing scenarioCatalog 2 0
    [⟨"user", MsgContent.str "q"⟩]).getD ([], [], [])

/-! ### Session open and request handler -/

/-- Python `str.endswith` (client.py lines 57-58), modelled over the
string's character sequence. -/
def endswith (s suffix : String) : Bool := suffix.data.isSuffixOf s.data

/-- Kinds of session-open failure (spec §7 taxonomy): the `ValueError`
raised at client.py line 60 is the `ValidationError` kind. -/
inductive SessionError where
  | validationError (msg : String)
deriving DecidableEq

/-- The remote-contacting steps of `connect_to_server` (client.py lines
63-76): launching the registry process, the session handshake
(`session.initialize`), and the catalog fetch (`list_tools`). -/
inductive ConnectEvent where
  | launchServer (command : String) (args : List String)
  | handshake
  | listToolsCall
deriving DecidableEq

/-- The operation `MCPClient.connect_to_server` (client.py lines 51-77) with its
remote effects reified: checks the script suffix, raising a
`ValueError` (ValidationError kind) before any remote step when the
path ends in neither `.py` nor `.js`; otherwise launches the registry
process (`python3` for `.py`, `node` for `.js`), performs the handshake
and fetches the tool catalog. -/
def connect_to_server (server_script_path : String) :
    List ConnectEvent × Except SessionError Unit :=
  let is_python := endswith server_script_path ".py"
  let is_js := endswith server_script_path ".js"
  if !(is_python || is_js) then
    ([], Except.error (SessionError.validationError "Server script must be a .py or .js file"))
  else
    let command := if is_python then "python3" else "node"
    ([ConnectEvent.launchServer command [server_script_path],
      ConnectEvent.handshake, ConnectEvent.listToolsCall], Except.ok ())

/-- The calls a request-handler execution makes (main.py lines
340-347). -/
inductive HandlerEvent where
  | connectCall
  | runCall
  | cleanupCall
deriving DecidableEq

/-- The `analysis_agent` request handler (main.py lines 340-347):
`connect_to_server` then `process_query` inside a `try` block whose
`finally` clause runs `cleanup`.  `connectOutcome` and `runOutcome`
abstract the two awaited calls, an error modelling the call raising;
when connect raises, `process_query` is not called.  Returns the
handler outcome and the calls made, in order. -/
def analysis_agent (connectOutcome : Except String Unit)
    (runOutcome : Except String String) :
    Except String String × List HandlerEvent :=
  match connectOutcome with
  | Except.error e => (Except.error e, [HandlerEvent.connectCall, HandlerEvent.cleanupCall])
  | Except.ok _ =>
    match runOutcome with
    | Except.error e =>
      (Except.error e,
        [HandlerEvent.connectCall, HandlerEvent.runCall, HandlerEvent.cleanupCall])
    | Except.ok s =>
      (Except.ok s,
        [HandlerEvent.connectCall, HandlerEvent.runCall, HandlerEvent.cleanupCall])

/-- C1: in the §8 scenario — catalog `[read_file]`, gateway stub whose
first response is the tool call `read_file(file_path: /a.txt)` and whose
second response is the text `done`, registry returning `hello` —
`process_query` terminates, issues exactly 2 loop model-gateway calls
plus exactly 1 summary call, invokes `read_file` exactly once, and
returns the text of the summary response. -/
theorem scenario_run_counts_and_result :
    ∃ out, processQuery scenarioGw scenarioTools scenarioCatalog scenarioSummary 2 "list files"
        = some out
      ∧ out.events.countP isGatewayCall = 2
      ∧ out.events.countP isSummaryCall = 1
      ∧ out.events.countP (isToolInvokeNamed "read_file") = 1
      ∧ out.result = Except.ok "The file /a.txt was read during the analysis." :=
  ⟨_, rfl, rfl, rfl, rfl, rfl⟩

/-- One loop step on a response with no tool-invocation request: the
loop terminates with the transcript unchanged. -/
theorem loopRun_step_none (gw : Nat → List TBlock)
    (tools : String → List (String × String) → CallToolResult)
    (catalog : List ToolDescriptor) (fuel k : Nat) (msgs : List Message)
    (hf : firstToolUse (gw k) = none) :
    loopRun gw tools catalog (fuel+1) k msgs = some (msgs, scanTexts (gw k), []) := by
  simp only [loopRun]
  rw [hf]

/-- One loop step on a response whose first tool-invocation request is
`(i, n, a)`: the tool is invoked, the pending assistant turn and the
tool-result user turn are appended, and the loop continues on the next
response. -/
theorem loopRun_step_tool (gw : Nat → List TBlock)
    (tools : String → List (String × String) → CallToolResult)
    (catalog : List ToolDescriptor) (fuel k : Nat) (msgs : List Message)
    (i n : String) (a : List (String × String))
    (hf : firstToolUse (gw k) = some (i, n, a)) :
    loopRun gw tools catalog (fuel+1) k msgs =
      match loopRun gw tools catalog fuel (k+1)
          (msgs ++ [⟨"assistant", MsgContent.blocks (pendingBlocks (gw k))⟩,
            ⟨"user", MsgContent.blocks [TBlock.toolResult i (tools n a).content]⟩]) with
      | none => none
      | some (m2, t2, e2) =>
        some (m2, scanTexts (gw k) ++ t2,
          Event.toolInvoke n a ::
            Event.commit ⟨"assistant", MsgContent.blocks (pendingBlocks (gw k))⟩ ::
            Event.commit ⟨"user", MsgContent.blocks [TBlock.toolResult i (tools n a).content]⟩ ::
            Event.gatewayCall
              (msgs ++ [⟨"assistant", MsgContent.blocks (pendingBlocks (gw k))⟩,
                ⟨"user", MsgContent.blocks [TBlock.toolResult i (tools n a).content]⟩])
              catalog :: e2) := by
  simp only [loopRun]
  rw [hf]

/-- The loop itself never issues a summary call: only `process_query`'s
final step does. -/
theorem loopRun_countP_summary (gw : Nat → List TBlock)
    (tools : String → List (String × String) → CallToolResult)
    (catalog : List ToolDescriptor) :
    ∀ fuel k msgs m t evs, loopRun gw tools catalog fuel k msgs = some (m, t, evs) →
      evs.countP isSummaryCall = 0 := by
  intro fuel
  induction fuel with
  | zero => intro k msgs m t evs h; simp [loopRun] at h
  | succ fuel ih =>
    intro k msgs m t evs h
    cases hf : firstToolUse (gw k) with
    | none =>
      rw [loopRun_step_none gw tools catalog fuel k msgs hf] at h
      simp only [Option.some.injEq, Prod.mk.injEq] at h
      simp [← h.2.2]
    | some x =>
      obtain ⟨i, n, a⟩ := x
      rw [loopRun_step_tool gw tools catalog fuel k msgs i n a hf] at h
      cases hrec : loopRun gw tools catalog fuel (k+1)
          (msgs ++ [⟨"assistant", MsgContent.blocks (pendingBlocks (gw k))⟩,
            ⟨"user", MsgContent.blocks [TBlock.toolResult i (tools n a).content]⟩]) with
      | none => rw [hrec] at h; simp at h
      | some y =>
        obtain ⟨m2, t2, e2⟩ := y
        rw [hrec] at h
        simp only [Option.some.injEq, Prod.mk.injEq] at h
        have he := ih _ _ _ _ _ hrec
        simp [← h.2.2, List.countP_cons, isSummaryCall, he]

/-- With the gateway stub that emits a tool call on the first `N`
responses and plain text afterwards, the loop started at response `k`
with `k + d = N` terminates, issuing exactly `d` further gateway
calls. -/
theorem loopRun_gwStubN_eval (N : Nat) :
    ∀ d k msgs, k + d = N →
      ∃ m t evs, loopRun (gwStubN N) toolsStub stubCatalog (d+1) k msgs = some (m, t, evs)
        ∧ evs.countP isGatewayCall = d := by
  intro d
  induction d with
  | zero =>
    intro k msgs hk
    have hk' : ¬ k < N := by omega
    refine ⟨msgs, scanTexts (gwStubN N k), [], ?_, rfl⟩
    simp [loopRun, gwStubN, hk', firstToolUse]
  | succ d ih =>
    intro k msgs hk
    have hk' : k < N := by omega
    have hgk : gwStubN N k = [TBlock.toolUse "t1" "stub_tool" []] := by simp [gwStubN, hk']
    have hf : firstToolUse (gwStubN N k) = some ("t1", "stub_tool", []) := by rw [hgk]; rfl
    obtain ⟨m, t, evs, h1, h2⟩ := ih (k+1) (msgs ++ [stubAMsg, stubUMsg]) (by omega)
    refine ⟨m, callNote "stub_tool" [] :: t,
      Event.toolInvoke "stub_tool" [] :: Event.commit stubAMsg :: Event.commit stubUMsg ::
        Event.gatewayCall (msgs ++ [stubAMsg, stubUMsg]) stubCatalog :: evs, ?_, ?_⟩
    · rw [loopRun_step_tool (gwStubN N) toolsStub stubCatalog (d+1) k msgs
        "t1" "stub_tool" [] hf, hgk]
      simp only [stubAMsg, stubUMsg] at h1
      simp [pendingBlocks, scanTexts, toolsStub, stubAMsg, stubUMsg, h1]
    · simp [List.countP_cons, isGatewayCall, h2]

/-- With the gateway stub whose every response contains a tool call,
the loop does not terminate within any iteration bound. -/
theorem loopRun_gwStubAll_none :
    ∀ fuel k msgs, loopRun gwStubAll toolsStub stubCatalog fuel k msgs = none := by
  intro fuel
  induction fuel with
  | zero => intro k msgs; rfl
  | succ fuel ih =>
    intro k msgs
    simp only [loopRun]
    simp [gwStubAll, firstToolUse, ih]

/-- C3: the conversation loop terminates exactly when some gateway
response contains no tool-invocation request: against the stub gateway
that returns tool-call turns the first `N` times and a tool-free turn
thereafter, the loop exits after `N+1` gateway calls (plus the single
summary call); against the stub gateway whose every response contains a
tool-invocation request, the loop never terminates — no iteration
bound suffices. -/
theorem loop_terminates_iff_tool_free_response :
    (∀ N query, ∃ out,
        processQuery (gwStubN N) toolsStub stubCatalog stubSummary (N+1) query = some out
          ∧ out.events.countP isGatewayCall = N + 1
          ∧ out.events.countP isSummaryCall = 1)
    ∧ (∀ fuel query,
        processQuery gwStubAll toolsStub stubCatalog stubSummary fuel query = none) := by
  constructor
  · intro N query
    obtain ⟨m, t, evs, h1, h2⟩ :=
      loopRun_gwStubN_eval N N 0 [⟨"user", MsgContent.str query⟩] (by omega)
    have hs := loopRun_countP_summary (gwStubN N) toolsStub stubCatalog _ _ _ _ _ _ h1
    refine ⟨⟨extractFirstText stubSummary, m, t,
      Event.gatewayCall [⟨"user", MsgContent.str query⟩] stubCatalog ::
        (evs ++ [Event.summaryCall (summarySystem query) m])⟩, ?_, ?_, ?_⟩
    · simp [processQuery, h1]
    · simp [List.countP_cons, List.countP_append, isGatewayCall, isSummaryCall, h2]
    · simp [List.countP_cons, List.countP_append, isGatewayCall, isSummaryCall, hs]
  · intro fuel query
    simp [processQuery, loopRun_gwStubAll_none]

/-- C2: on a gateway response whose first tool-invocation request is
`(i, n, a)`, the loop executes only that first request: it invokes tool
`n` with arguments `a`, appends the pending assistant turn (the
response's blocks up to and including that request) to the transcript,
appends the result as a user-role turn whose sole content block is a
tool result tagged with the matching call identifier `i`, immediately
issues the next gateway call on the grown transcript, and the rest of
the execution processes only later responses — no further block of
this response is executed. -/
theorem loop_executes_only_first_tool_request
    (gw : Nat → List TBlock) (tools : String → List (String × String) → CallToolResult)
    (catalog : List ToolDescriptor) (fuel k : Nat) (msgs : List Message)
    (i n : String) (a : List (String × String))
    (hf : firstToolUse (gw k) = some (i, n, a))
    (m2 : List Message) (t2 : List String) (evs : List Event)
    (hrun : loopRun gw tools catalog (fuel+1) k msgs = some (m2, t2, evs)) :
    ∃ t3 evs3,
      loopRun gw tools catalog fuel (k+1)
          (msgs ++ [⟨"assistant", MsgContent.blocks (pendingBlocks (gw k))⟩,
            ⟨"user", MsgContent.blocks [TBlock.toolResult i (tools n a).content]⟩])
        = some (m2, t3, evs3)
      ∧ evs = Event.toolInvoke n a ::
          Event.commit ⟨"assistant", MsgContent.blocks (pendingBlocks (gw k))⟩ ::
          Event.commit ⟨"user", MsgContent.blocks [TBlock.toolResult i (tools n a).content]⟩ ::
          Event.gatewayCall
            (msgs ++ [⟨"assistant", MsgContent.blocks (pendingBlocks (gw k))⟩,
              ⟨"user", MsgContent.blocks [TBlock.toolResult i (tools n a).content]⟩])
            catalog :: evs3
      ∧ t2 = scanTexts (gw k) ++ t3 := by
  rw [loopRun_step_tool gw tools catalog fuel k msgs i n a hf] at hrun
  cases hrec : loopRun gw tools catalog fuel (k+1)
      (msgs ++ [⟨"assistant", MsgContent.blocks (pendingBlocks (gw k))⟩,
        ⟨"user", MsgContent.blocks [TBlock.toolResult i (tools n a).content]⟩]) with
  | none => rw [hrec] at hrun; simp at hrun
  | some y =>
    obtain ⟨m3, t3, e3⟩ := y
    rw [hrec] at hrun
    simp only [Option.some.injEq, Prod.mk.injEq] at hrun
    obtain ⟨hm, ht, he⟩ := hrun
    subst hm
    exact ⟨t3, e3, rfl, he.symm, ht.symm⟩

/-- Witness for C2 at the §8 scenario. -/
theorem loop_executes_only_first_tool_request_witness :
    ∃ evs3, scenarioLoopOut.2.2 =
      Event.toolInvoke "read_file" [("file_path", "/a.txt")] ::
        Event.commit ⟨"assistant", MsgContent.blocks (pendingBlocks (scenarioGw 0))⟩ ::
        Event.commit ⟨"user", MsgContent.blocks [TBlock.toolResult "toolu_01"
          (scenarioTools "read_file" [("file_path", "/a.txt")]).content]⟩ ::
        Event.gatewayCall
          ([⟨"user", MsgContent.str "list files"⟩] ++
            [⟨"assistant", MsgContent.blocks (pendingBlocks (scenarioGw 0))⟩,
              ⟨"user", MsgContent.blocks [TBlock.toolResult "toolu_01"
                (scenarioTools "read_file" [("file_path", "/a.txt")]).content]⟩])
          scenarioCatalog :: evs3 := by
  obtain ⟨t3, evs3, h1, h2, h3⟩ :=
    loop_executes_only_first_tool_request scenarioGw scenarioTools scenarioCatalog 1 0
      [⟨"user", MsgContent.str "list files"⟩] "toolu_01" "read_file" [("file_path", "/a.txt")]
      rfl scenarioLoopOut.1 scenarioLoopOut.2.1 scenarioLoopOut.2.2 rfl
  exact ⟨evs3, h2⟩

/-- C4: a failing registry invocation — one whose result carries the
error flag and an error payload — is folded into the transcript exactly
like a success: the sole tool-result block of the appended user turn
carries the error payload, the loop does not abort (it terminates
exactly when the continuation from the next gateway call does), and the
next gateway call is issued immediately after the two commits. -/
theorem tool_failure_folded_like_success
    (gw : Nat → List TBlock) (tools : String → List (String × String) → CallToolResult)
    (catalog : List ToolDescriptor) (fuel k : Nat) (msgs : List Message)
    (i n : String) (a : List (String × String)) (e : String)
    (hf : firstToolUse (gw k) = some (i, n, a))
    (he : tools n a = ⟨e, true⟩) :
    ((loopRun gw tools catalog (fuel+1) k msgs).isSome ↔
      (loopRun gw tools catalog fuel (k+1)
        (msgs ++ [⟨"assistant", MsgContent.blocks (pendingBlocks (gw k))⟩,
          ⟨"user", MsgContent.blocks [TBlock.toolResult i e]⟩])).isSome)
    ∧ (∀ m2 t2 evs, loopRun gw tools catalog (fuel+1) k msgs = some (m2, t2, evs) →
        evs.take 4 = [Event.toolInvoke n a,
          Event.commit ⟨"assistant", MsgContent.blocks (pendingBlocks (gw k))⟩,
          Event.commit ⟨"user", MsgContent.blocks [TBlock.toolResult i e]⟩,
          Event.gatewayCall
            (msgs ++ [⟨"assistant", MsgContent.blocks (pendingBlocks (gw k))⟩,
              ⟨"user", MsgContent.blocks [TBlock.toolResult i e]⟩]) catalog]) := by
  have hstep := loopRun_step_tool gw tools catalog fuel k msgs i n a hf
  rw [he] at hstep
  constructor
  · rw [hstep]
    cases hrec : loopRun gw tools catalog fuel (k+1)
        (msgs ++ [⟨"assistant", MsgContent.blocks (pendingBlocks (gw k))⟩,
          ⟨"user", MsgContent.blocks [TBlock.toolResult i e]⟩]) with
    | none => simp
    | some y => obtain ⟨m2, t2, e2⟩ := y; simp
  · intro m2 t2 evs hr
    rw [hstep] at hr
    cases hrec : loopRun gw tools catalog fuel (k+1)
        (msgs ++ [⟨"assistant", MsgContent.blocks (pendingBlocks (gw k))⟩,
          ⟨"user", MsgContent.blocks [TBlock.toolResult i e]⟩]) with
    | none => rw [hrec] at hr; simp at hr
    | some y =>
      obtain ⟨m3, t3, e3⟩ := y
      rw [hrec] at hr
      simp only [Option.some.injEq, Prod.mk.injEq] at hr
      simp [← hr.2.2]

/-- Witness for C4: the §8 scenario against the failing registry
stub. -/
theorem tool_failure_folded_like_success_witness :
    failLoopOut.2.2.take 4 = [Event.toolInvoke "read_file" [("file_path", "/a.txt")],
      Event.commit ⟨"assistant", MsgContent.blocks (pendingBlocks (scenarioGw 0))⟩,
      Event.commit ⟨"user", MsgContent.blocks
        [TBlock.toolResult "toolu_01" "Error: tool failed"]⟩,
      Event.gatewayCall
        ([⟨"user", MsgContent.str "q"⟩] ++
          [⟨"assistant", MsgContent.blocks (pendingBlocks (scenarioGw 0))⟩,
            ⟨"user", MsgContent.blocks
              [TBlock.toolResult "toolu_01" "Error: tool failed"]⟩]) scenarioCatalog] :=
  (tool_failure_folded_like_success scenarioGw toolsFailing scenarioCatalog 1 0
    [⟨"user", MsgContent.str "q"⟩] "toolu_01" "read_file" [("file_path", "/a.txt")]
    "Error: tool failed" rfl rfl).2
    failLoopOut.1 failLoopOut.2.1 failLoopOut.2.2 rfl

/-- The pending assistant content of a response whose first
tool-invocation request carries id `i` contains exactly one
tool-invocation request with id `i`. -/
theorem pendingBlocks_countP_eq_one (bs : List TBlock) (i n : String)
    (a : List (String × String)) (hf : firstToolUse bs = some (i, n, a)) :
    (pendingBlocks bs).countP (hasToolUseId i) = 1 := by
  induction bs with
  | nil => simp [firstToolUse] at hf
  | cons b rest ih =>
    cases b with
    | text s =>
      simp only [firstToolUse] at hf
      simp [pendingBlocks, List.countP_cons, hasToolUseId, ih hf]
    | toolUse j n2 a2 =>
      simp only [firstToolUse, Option.some.injEq, Prod.mk.injEq] at hf
      obtain ⟨h1, h2, h3⟩ := hf
      subst h1
      simp [pendingBlocks, List.countP_cons, hasToolUseId]
    | toolResult j o =>
      simp only [firstToolUse] at hf
      simp [pendingBlocks, ih hf]

/-- The pending assistant content contains the first tool-invocation
request itself. -/
theorem pendingBlocks_any_toolUse (bs : List TBlock) (i n : String)
    (a : List (String × String)) (hf : firstToolUse bs = some (i, n, a)) :
    (pendingBlocks bs).any (fun b => b == TBlock.toolUse i n a) = true := by
  induction bs with
  | nil => simp [firstToolUse] at hf
  | cons b rest ih =>
    cases b with
    | text s =>
      simp only [firstToolUse] at hf
      simp [pendingBlocks, ih hf]
    | toolUse j n2 a2 =>
      simp only [firstToolUse, Option.some.injEq, Prod.mk.injEq] at hf
      obtain ⟨h1, h2, h3⟩ := hf
      subst h1; subst h2; subst h3
      simp [pendingBlocks]
    | toolResult j o =>
      simp only [firstToolUse] at hf
      simp [pendingBlocks, ih hf]

/-- Pending assistant content never contains a tool-result block. -/
theorem pendingBlocks_resultIds (bs : List TBlock) :
    (pendingBlocks bs).filterMap toolResultIdOf = [] := by
  induction bs with
  | nil => rfl
  | cons b rest ih =>
    cases b <;> simp [pendingBlocks, toolResultIdOf, ih]

/-- Transcript well-formedness splits over an append. -/
theorem okFrom_append (xs : List Message) :
    ∀ prev ys, okFrom prev (xs ++ ys) = (okFrom prev xs && okFrom (lastPrev prev xs) ys) := by
  induction xs with
  | nil => intro prev ys; simp [okFrom, lastPrev]
  | cons m rest ih =>
    intro prev ys
    simp [okFrom, lastPrev, ih, Bool.and_assoc]

/-- Gateway-transcript well-formedness splits over an append. -/
theorem eventTranscriptsOk_append (xs ys : List Event) :
    eventTranscriptsOk (xs ++ ys) = (eventTranscriptsOk xs && eventTranscriptsOk ys) := by
  induction xs with
  | nil => simp [eventTranscriptsOk]
  | cons e rest ih =>
    cases e <;> simp [eventTranscriptsOk, ih, Bool.and_assoc]

/-- The loop preserves the transcript invariant, and every transcript it
hands to a gateway call satisfies it. -/
theorem loopRun_okTranscript (gw : Nat → List TBlock)
    (tools : String → List (String × String) → CallToolResult)
    (catalog : List ToolDescriptor) :
    ∀ fuel k msgs m t evs, okTranscript msgs = true →
      loopRun gw tools catalog fuel k msgs = some (m, t, evs) →
      okTranscript m = true ∧ eventTranscriptsOk evs = true := by
  intro fuel
  induction fuel with
  | zero => intro k msgs m t evs hok h; simp [loopRun] at h
  | succ fuel ih =>
    intro k msgs m t evs hok h
    cases hf : firstToolUse (gw k) with
    | none =>
      rw [loopRun_step_none gw tools catalog fuel k msgs hf] at h
      simp only [Option.some.injEq, Prod.mk.injEq] at h
      obtain ⟨hm, ht, he⟩ := h
      subst hm
      refine ⟨hok, ?_⟩
      rw [← he]
      rfl
    | some x =>
      obtain ⟨i, n, a⟩ := x
      rw [loopRun_step_tool gw tools catalog fuel k msgs i n a hf] at h
      have hok1 : okTranscript
          (msgs ++ [⟨"assistant", MsgContent.blocks (pendingBlocks (gw k))⟩,
            ⟨"user", MsgContent.blocks [TBlock.toolResult i (tools n a).content]⟩]) = true := by
        unfold okTranscript at hok ⊢
        rw [okFrom_append, hok]
        simp [okFrom, msgToolResultIds, toolResultIdOf, pendingBlocks_resultIds,
          prevAssistantMatches, pendingBlocks_countP_eq_one (gw k) i n a hf]
      cases hrec : loopRun gw tools catalog fuel (k+1)
          (msgs ++ [⟨"assistant", MsgContent.blocks (pendingBlocks (gw k))⟩,
            ⟨"user", MsgContent.blocks [TBlock.toolResult i (tools n a).content]⟩]) with
      | none => rw [hrec] at h; simp at h
      | some y =>
        obtain ⟨m2, t2, e2⟩ := y
        rw [hrec] at h
        simp only [Option.some.injEq, Prod.mk.injEq] at h
        obtain ⟨hm, ht, he⟩ := h
        obtain ⟨hA, hB⟩ := ih (k+1) _ m2 t2 e2 hok1 hrec
        subst hm
        refine ⟨hA, ?_⟩
        rw [← he]
        simp [eventTranscriptsOk, hok1, hB]

/-- C5: for every transcript produced by the loop — the final one handed
to the summary call and every one handed to a loop gateway call — each
tool-result block's call identifier matches exactly one tool-invocation
request occurring in the immediately prior assistant turn. -/
theorem transcript_tool_results_match_prior_assistant
    (gw : Nat → List TBlock) (tools : String → List (String × String) → CallToolResult)
    (catalog : List ToolDescriptor) (sResp : List TBlock) (fuel : Nat) (query : String)
    (out : RunOut) (h : processQuery gw tools catalog sResp fuel query = some out) :
    okTranscript out.messages = true ∧ eventTranscriptsOk out.events = true := by
  simp only [processQuery] at h
  cases hrec : loopRun gw tools catalog fuel 0 [⟨"user", MsgContent.str query⟩] with
  | none => rw [hrec] at h; simp at h
  | some y =>
    obtain ⟨m, t, evs⟩ := y
    rw [hrec] at h
    simp only [Option.some.injEq] at h
    have h0 : okTranscript [(⟨"user", MsgContent.str query⟩ : Message)] = true := by
      simp [okTranscript, okFrom, msgToolResultIds]
    obtain ⟨hA, hB⟩ := loopRun_okTranscript gw tools catalog fuel 0 _ m t evs h0 hrec
    subst h
    refine ⟨hA, ?_⟩
    simp [eventTranscriptsOk, eventTranscriptsOk_append, h0, hA, hB]

/-- Witness for C5 at the §8 scenario. -/
theorem transcript_tool_results_match_witness :
    okTranscript scenarioOut.messages = true
    ∧ eventTranscriptsOk scenarioOut.events = true :=
  transcript_tool_results_match_prior_assistant scenarioGw scenarioTools scenarioCatalog
    scenarioSummary 2 "list files" scenarioOut rfl

/-- The loop's event trace follows the invoke-commit-commit-gateway
pattern, for any well-patterned continuation. -/
theorem loopRun_invokePattern (gw : Nat → List TBlock)
    (tools : String → List (String × String) → CallToolResult)
    (catalog : List ToolDescriptor) :
    ∀ fuel k msgs m t evs tail, loopRun gw tools catalog fuel k msgs = some (m, t, evs) →
      invokePattern tail = true → invokePattern (evs ++ tail) = true := by
  intro fuel
  induction fuel with
  | zero => intro k msgs m t evs tail h htail; simp [loopRun] at h
  | succ fuel ih =>
    intro k msgs m t evs tail h htail
    cases hf : firstToolUse (gw k) with
    | none =>
      rw [loopRun_step_none gw tools catalog fuel k msgs hf] at h
      simp only [Option.some.injEq, Prod.mk.injEq] at h
      rw [← h.2.2]
      simpa using htail
    | some x =>
      obtain ⟨i, n, a⟩ := x
      rw [loopRun_step_tool gw tools catalog fuel k msgs i n a hf] at h
      cases hrec : loopRun gw tools catalog fuel (k+1)
          (msgs ++ [⟨"assistant", MsgContent.blocks (pendingBlocks (gw k))⟩,
            ⟨"user", MsgContent.blocks [TBlock.toolResult i (tools n a).content]⟩]) with
      | none => rw [hrec] at h; simp at h
      | some y =>
        obtain ⟨m2, t2, e2⟩ := y
        rw [hrec] at h
        simp only [Option.some.injEq, Prod.mk.injEq] at h
        obtain ⟨hm, ht, he⟩ := h
        rw [← he]
        simp only [List.cons_append]
        simp [invokePattern, matchedPair, pendingBlocks_countP_eq_one (gw k) i n a hf,
          pendingBlocks_any_toolUse (gw k) i n a hf,
          ih (k+1) _ m2 t2 e2 tail hrec htail]

/-- C6 counterexample: in the §8 scenario the tool-invocation event
occurs before the commit of the assistant turn containing its request,
so the ordering the claim asserts fails on the code. -/
theorem tool_invoked_before_assistant_commit_cex :
    processQuery scenarioGw scenarioTools scenarioCatalog scenarioSummary 2 "list files"
      = some scenarioOut
    ∧ invokeAfterCommit scenarioOut.events = false :=
  ⟨rfl, rfl⟩

/-- C6 (amended): in every execution the tool is invoked immediately
upon receipt of the gateway response containing its request — before,
not after, the assistant turn is committed; the assistant turn
(containing exactly the matching request) and the matching tool-result
user turn are then committed, in that order, before the next model
gateway call is issued. -/
theorem tool_invocation_ordering
    (gw : Nat → List TBlock) (tools : String → List (String × String) → CallToolResult)
    (catalog : List ToolDescriptor) (sResp : List TBlock) (fuel : Nat) (query : String)
    (out : RunOut) (h : processQuery gw tools catalog sResp fuel query = some out) :
    invokePattern out.events = true := by
  simp only [processQuery] at h
  cases hrec : loopRun gw tools catalog fuel 0 [⟨"user", MsgContent.str query⟩] with
  | none => rw [hrec] at h; simp at h
  | some y =>
    obtain ⟨m, t, evs⟩ := y
    rw [hrec] at h
    simp only [Option.some.injEq] at h
    subst h
    have htail : invokePattern [Event.summaryCall (summarySystem query) m] = true := rfl
    have hp := loopRun_invokePattern gw tools catalog fuel 0 _ m t evs
      [Event.summaryCall (summarySystem query) m] hrec htail
    simpa [invokePattern] using hp

/-- Witness for the amended C6 at the §8 scenario. -/
theorem tool_invocation_ordering_witness :
    invokePattern scenarioOut.events = true :=
  tool_invocation_ordering scenarioGw scenarioTools scenarioCatalog scenarioSummary 2
    "list files" scenarioOut rfl

/-- Committed messages split over an append of traces. -/
theorem commitsOf_append (xs ys : List Event) :
    commitsOf (xs ++ ys) = commitsOf xs ++ commitsOf ys := by
  induction xs with
  | nil => rfl
  | cons e rest ih => cases e <;> simp [commitsOf, ih]

/-- The transcript at loop exit is the starting transcript followed by
exactly the turns committed during the loop. -/
theorem loopRun_messages_eq_commits (gw : Nat → List TBlock)
    (tools : String → List (String × String) → CallToolResult)
    (catalog : List ToolDescriptor) :
    ∀ fuel k msgs m t evs, loopRun gw tools catalog fuel k msgs = some (m, t, evs) →
      m = msgs ++ commitsOf evs := by
  intro fuel
  induction fuel with
  | zero => intro k msgs m t evs h; simp [loopRun] at h
  | succ fuel ih =>
    intro k msgs m t evs h
    cases hf : firstToolUse (gw k) with
    | none =>
      rw [loopRun_step_none gw tools catalog fuel k msgs hf] at h
      simp only [Option.some.injEq, Prod.mk.injEq] at h
      obtain ⟨hm, ht, he⟩ := h
      subst hm
      rw [← he]
      simp [commitsOf]
    | some x =>
      obtain ⟨i, n, a⟩ := x
      rw [loopRun_step_tool gw tools catalog fuel k msgs i n a hf] at h
      cases hrec : loopRun gw tools catalog fuel (k+1)
          (msgs ++ [⟨"assistant", MsgContent.blocks (pendingBlocks (gw k))⟩,
            ⟨"user", MsgContent.blocks [TBlock.toolResult i (tools n a).content]⟩]) with
      | none => rw [hrec] at h; simp at h
      | some y =>
        obtain ⟨m2, t2, e2⟩ := y
        rw [hrec] at h
        simp only [Option.some.injEq, Prod.mk.injEq] at h
        obtain ⟨hm, ht, he⟩ := h
        subst hm
        rw [← he]
        have hrec2 := ih (k+1) _ m2 t2 e2 hrec
        rw [hrec2]
        simp [commitsOf]

/-- C7 counterexample: with a gateway whose first response is the
tool-free text `done`, the summary call's message input is just the
initial user turn — the final assistant turn is not part of it. -/
theorem summary_excludes_final_assistant_turn_cex :
    processQuery gwTextOnly toolsStub stubCatalog stubSummary 1 "q" = some textOnlyOut
    ∧ textOnlyOut.events.getLast? =
        some (Event.summaryCall (summarySystem "q") textOnlyOut.messages)
    ∧ textOnlyOut.messages = [⟨"user", MsgContent.str "q"⟩] :=
  ⟨rfl, rfl, rfl⟩

/-- C7 (amended): after the loop exits, exactly one further model
gateway call is issued — the last event of the execution — whose
instruction is the summary system prompt over the original query and
whose message input is the transcript as committed so far: the initial
user turn followed by exactly the committed turns (the final assistant
turn, never committed, is therefore not part of it); the returned value
is the text extracted from the summary response. -/
theorem summary_call_once_over_committed_transcript
    (gw : Nat → List TBlock) (tools : String → List (String × String) → CallToolResult)
    (catalog : List ToolDescriptor) (sResp : List TBlock) (fuel : Nat) (query : String)
    (out : RunOut) (h : processQuery gw tools catalog sResp fuel query = some out) :
    out.events.countP isSummaryCall = 1
    ∧ out.events.getLast? = some (Event.summaryCall (summarySystem query) out.messages)
    ∧ out.messages = ⟨"user", MsgContent.str query⟩ :: commitsOf out.events
    ∧ out.result = extractFirstText sResp := by
  simp only [processQuery] at h
  cases hrec : loopRun gw tools catalog fuel 0 [⟨"user", MsgContent.str query⟩] with
  | none => rw [hrec] at h; simp at h
  | some y =>
    obtain ⟨m, t, evs⟩ := y
    rw [hrec] at h
    simp only [Option.some.injEq] at h
    subst h
    have hs := loopRun_countP_summary gw tools catalog fuel 0 _ m t evs hrec
    have hm := loopRun_messages_eq_commits gw tools catalog fuel 0 _ m t evs hrec
    refine ⟨?_, ?_, ?_, rfl⟩
    · simp [List.countP_cons, List.countP_append, isSummaryCall, hs]
    · show (Event.gatewayCall [⟨"user", MsgContent.str query⟩] catalog ::
          (evs ++ [Event.summaryCall (summarySystem query) m])).getLast? = _
      rw [show Event.gatewayCall [⟨"user", MsgContent.str query⟩] catalog ::
          (evs ++ [Event.summaryCall (summarySystem query) m])
        = (Event.gatewayCall [⟨"user", MsgContent.str query⟩] catalog :: evs)
            ++ Event.summaryCall (summarySystem query) m :: [] from by simp]
      rw [List.getLast?_append_cons]
      rfl
    · show m = ⟨"user", MsgContent.str query⟩ ::
        commitsOf (Event.gatewayCall [⟨"user", MsgContent.str query⟩] catalog ::
          (evs ++ [Event.summaryCall (summarySystem query) m]))
      simp [commitsOf, commitsOf_append, hm]

/-- Witness for the amended C7 at the §8 scenario. -/
theorem summary_call_once_witness :
    scenarioOut.events.countP isSummaryCall = 1
    ∧ scenarioOut.events.getLast? =
        some (Event.summaryCall (summarySystem "list files") scenarioOut.messages)
    ∧ scenarioOut.messages =
        ⟨"user", MsgContent.str "list files"⟩ :: commitsOf scenarioOut.events
    ∧ scenarioOut.result = extractFirstText scenarioSummary :=
  summary_call_once_over_committed_transcript scenarioGw scenarioTools scenarioCatalog
    scenarioSummary 2 "list files" scenarioOut rfl

/-- C8: for every launch specification whose server script path ends
with neither `.py` nor `.js`, session open fails with the
ValidationError kind and performs no remote step — the registry process
is never launched and no handshake or catalog fetch is attempted. -/
theorem connect_rejects_unknown_script_kind
    (p : String) (h1 : endswith p ".py" = false) (h2 : endswith p ".js" = false) :
    connect_to_server p =
      ([], Except.error
        (SessionError.validationError "Server script must be a .py or .js file")) := by
  simp [connect_to_server, h1, h2]

/-- Witness for C8 at the path `server.txt`. -/
theorem connect_rejects_unknown_script_kind_witness :
    (endswith "server.txt" ".py" = false) ∧ (endswith "server.txt" ".js" = false)
    ∧ connect_to_server "server.txt" =
        ([], Except.error
          (SessionError.validationError "Server script must be a .py or .js file")) :=
  ⟨by decide, by decide, connect_rejects_unknown_script_kind "server.txt" (by decide) (by decide)⟩

/-- C9: on every exit path of the request handler — run returning
normally, run raising, or connect raising — cleanup is called exactly
once, and it is the last call made. -/
theorem cleanup_called_exactly_once
    (c : Except String Unit) (r : Except String String) :
    (analysis_agent c r).2.count HandlerEvent.cleanupCall = 1
    ∧ (analysis_agent c r).2.getLast? = some HandlerEvent.cleanupCall := by
  cases c with
  | error e => exact ⟨rfl, rfl⟩
  | ok u =>
    cases r with
    | error e => exact ⟨rfl, rfl⟩
    | ok s => exact ⟨rfl, rfl⟩

/-- C10: the value `run` returns is exactly the `text` field of the
first content block of the summary response — further blocks are
ignored — and for a summary response with an empty content sequence the
extraction fails with an out-of-range error instead of returning a
string. -/
theorem run_returns_first_summary_block_text
    (gw : Nat → List TBlock) (tools : String → List (String × String) → CallToolResult)
    (catalog : List ToolDescriptor) (fuel : Nat) (query : String) :
    (∀ s rest out,
        processQuery gw tools catalog (TBlock.text s :: rest) fuel query = some out →
        out.result = Except.ok s)
    ∧ (∀ out, processQuery gw tools catalog [] fuel query = some out →
        out.result = Except.error RunError.indexOutOfRange) := by
  constructor
  · intro s rest out h
    simp only [processQuery] at h
    cases hrec : loopRun gw tools catalog fuel 0 [⟨"user", MsgContent.str query⟩] with
    | none => rw [hrec] at h; simp at h
    | some y =>
      obtain ⟨m, t, evs⟩ := y
      rw [hrec] at h
      simp only [Option.some.injEq] at h
      rw [← h]
      rfl
  · intro out h
    simp only [processQuery] at h
    cases hrec : loopRun gw tools catalog fuel 0 [⟨"user", MsgContent.str query⟩] with
    | none => rw [hrec] at h; simp at h
    | some y =>
      obtain ⟨m, t, evs⟩ := y
      rw [hrec] at h
      simp only [Option.some.injEq] at h
      rw [← h]
      rfl

/-- Witness for C10: a two-block summary response yields the first
block's text; an empty one yields the out-of-range failure. -/
theorem run_returns_first_summary_block_text_witness :
    ((processQuery gwTextOnly toolsStub stubCatalog [TBlock.text "s", TBlock.text "x"] 1
        "q").getD fallbackOut).result = Except.ok "s"
    ∧ ((processQuery gwTextOnly toolsStub stubCatalog [] 1 "q").getD
        fallbackOut).result = Except.error RunError.indexOutOfRange :=
  ⟨(run_returns_first_summary_block_text gwTextOnly toolsStub stubCatalog 1 "q").1 "s"
      [TBlock.text "x"] _ rfl,
    (run_returns_first_summary_block_text gwTextOnly toolsStub stubCatalog 1 "q").2 _ rfl⟩

end MCPClient
